import Mathlib

/-!
Verification of the chunking / embedding-cache / semantic-ranking subsystem
of the EGESUR normative-documents API (src/main.py).

The Python source is shallowly embedded:
- chunk records (dicts) become the `Chunk` structure,
- the PostgreSQL row model `DocumentChunk` becomes the structure of the
  same name; the durable store is a `List DocumentChunk`,
- the module-global volatile cache `CACHE` (an optionally-empty dict)
  becomes `Option CacheState`; `datetime.now()` is passed explicitly as an
  integer number of hours, matching the `timedelta(hours=...)` arithmetic,
- external collaborators (Google Drive listing/download, text extraction,
  the OpenAI embedding endpoint) are parameters of an `Env` record, each
  returning `Except` to model raised exceptions,
- Python floats are modelled as rationals; the square root inside
  `np.linalg.norm` forces cosine scores into `ℝ`.
-/

/-- Embedding vectors (Python lists of floats, modelled over `ℚ`). -/
abbrev Vec := List ℚ

/-- A chunk record as built by `warmup_cache` / `buscar_normativa`:
the dict with keys chunk_id, text, embedding, source_document,
source_link, chunk_index, total_chunks.  `embedding` is `none` for the
error placeholder chunks (`'embedding': None`). -/
structure Chunk where
  chunk_id : String
  text : String
  embedding : Option Vec
  source_document : String
  source_link : String
  chunk_index : Nat
  total_chunks : Nat
deriving DecidableEq, Repr

/-- A persisted row of the `document_chunks` table (class `DocumentChunk`).
The `embedding` column is declared `nullable=False`, hence a plain `Vec`.
`created_at` (a server-side default timestamp) plays no role in any claim
and is omitted. -/
structure DocumentChunk where
  chunk_id : String
  text : String
  embedding : Vec
  source_document : String
  source_link : String
  chunk_index : Nat
  total_chunks : Nat
  folder_id : String
deriving DecidableEq, Repr

/-- The non-empty shape of the module-global `CACHE` dict, as written by
`update_cache` and the startup hydration: keys timestamp, folder_id,
files_data, total_files.  `timestamp` stays optional to mirror the
defensive `CACHE.get("timestamp")` check in `is_cache_valid`. -/
structure CacheState where
  timestamp : Option Int
  folder_id : String
  files_data : List Chunk
  total_files : Nat
deriving DecidableEq, Repr

/-- Mutable process state touched by the cache subsystem: the volatile
`CACHE` (`none` is the empty dict `{}`) and the durable
`document_chunks` table. -/
structure SysState where
  cache : Option CacheState
  db : List DocumentChunk
deriving DecidableEq, Repr

/-- `CACHE_TTL_HOURS = 24 * 365 * 100`. -/
def CACHE_TTL_HOURS : Int := 24 * 365 * 100

/-- `is_cache_valid(folder_id)`; `now` stands for `datetime.now()`,
measured in hours so that `timestamp + timedelta(hours=CACHE_TTL_HOURS)`
is `ts + CACHE_TTL_HOURS`.  Mirrors the four exits of the source: empty
dict or folder mismatch, missing timestamp, empty `files_data`, and the
TTL comparison `datetime.now() < expiration_time`. -/
def is_cache_valid (cache : Option CacheState) (now : Int) (folder_id : String) : Bool :=
  match cache with
  | none => false
  | some c =>
    if c.folder_id ≠ folder_id then false
    else
      match c.timestamp with
      | none => false
      | some ts =>
        if c.files_data.isEmpty then false
        else decide (now < ts + CACHE_TTL_HOURS)

/-- `get_cached_files()`: `CACHE.get("files_data", [])`. -/
def get_cached_files (cache : Option CacheState) : List Chunk :=
  (cache.map (fun c => c.files_data)).getD []

/-- `save_chunks_to_db(chunks, folder_id)`: when the session factory is
configured, delete every row of the folder, then insert one row per chunk
that has a usable embedding — the loop does `continue` on
`chunk_data.get('embedding') is None`.  Returns the new table contents. -/
def save_chunks_to_db (sessionConfigured : Bool) (chunks : List Chunk) (folder_id : String)
    (db : List DocumentChunk) : List DocumentChunk :=
  if ¬sessionConfigured then db
  else
    (db.filter (fun r => r.folder_id != folder_id)) ++
      chunks.filterMap (fun c =>
        match c.embedding with
        | none => none
        | some e => some {
            chunk_id := c.chunk_id,
            text := c.text,
            embedding := e,
            source_document := c.source_document,
            source_link := c.source_link,
            chunk_index := c.chunk_index,
            total_chunks := c.total_chunks,
            folder_id := folder_id })

/-- `update_cache(folder_id, files_data)`: swap the whole volatile dict,
then persist through `save_chunks_to_db`. -/
def update_cache (sessionConfigured : Bool) (folder_id : String) (files_data : List Chunk)
    (now : Int) (s : SysState) : SysState :=
  { cache := some {
      timestamp := some now,
      folder_id := folder_id,
      files_data := files_data,
      total_files := files_data.length },
    db := save_chunks_to_db sessionConfigured files_data folder_id s.db }

/-- `invalidate_cache()`: `CACHE = {}`; the database is not mentioned. -/
def invalidate_cache (s : SysState) : SysState :=
  { cache := none, db := s.db }

/-- The embedding-based read path of `buscar_normativa`:
`[c for c in all_files_data if c.get('embedding') is not None]`, the only
list handed to `semantic_search`. -/
def chunks_with_embeddings (all_files_data : List Chunk) : List Chunk :=
  all_files_data.filter (fun c => c.embedding.isSome)

-- Shared sample data for concrete evaluations.

/-- A placeholder-style chunk without an embedding. -/
def sampleErrorChunk : Chunk :=
  { chunk_id := "c0", text := "t0", embedding := none,
    source_document := "d0", source_link := "", chunk_index := 0, total_chunks := 1 }

/-- A chunk carrying a usable embedding. -/
def sampleGoodChunk : Chunk :=
  { chunk_id := "c1", text := "t1", embedding := some [1],
    source_document := "d1", source_link := "", chunk_index := 0, total_chunks := 1 }

/-- The row `save_chunks_to_db` writes for `sampleGoodChunk` in folder "f". -/
def sampleGoodRow : DocumentChunk :=
  { chunk_id := "c1", text := "t1", embedding := [1],
    source_document := "d1", source_link := "", chunk_index := 0, total_chunks := 1,
    folder_id := "f" }

/-- A valid one-chunk cache snapshot for folder "f" taken at hour 0. -/
def sampleCache : Option CacheState :=
  some { timestamp := some 0, folder_id := "f",
         files_data := [sampleGoodChunk], total_files := 1 }

/-- An empty system state. -/
def emptyState : SysState := { cache := none, db := [] }

/-- Characterization of `is_cache_valid`, shared by several claims. -/
theorem is_cache_valid_iff (cache : Option CacheState) (now : Int) (fid : String) :
    is_cache_valid cache now fid = true ↔
      ∃ c, cache = some c ∧ c.folder_id = fid ∧
        (∃ ts, c.timestamp = some ts ∧ now < ts + CACHE_TTL_HOURS) ∧
        c.files_data ≠ [] := by
  constructor
  · intro h
    match cache with
    | none => simp [is_cache_valid] at h
    | some c =>
      refine ⟨c, rfl, ?_⟩
      by_cases hfid : c.folder_id = fid
      · match hts : c.timestamp with
        | none => simp [is_cache_valid, hts] at h
        | some ts =>
          by_cases hne : c.files_data.isEmpty
          · simp [is_cache_valid, hts, hne] at h
          · simp only [is_cache_valid, hts, hfid] at h
            refine ⟨hfid, ⟨ts, rfl, ?_⟩, ?_⟩
            · simpa [hne] using h
            · simpa using hne
      · simp [is_cache_valid, hfid] at h
  · rintro ⟨c, rfl, hfid, ⟨ts, hts, httl⟩, hne⟩
    simp [is_cache_valid, hfid, hts, httl, List.isEmpty_iff, hne]

/-- C4. `is_cache_valid` holds exactly when a snapshot for the requested
folder exists (non-empty dict, matching folder_id, timestamp present),
it has at least one chunk, and its age is below the TTL bound; hence a
fresh but empty snapshot is invalid. -/
theorem claim_C4_is_cache_valid_iff (cache : Option CacheState) (now : Int) (fid : String) :
    is_cache_valid cache now fid = true ↔
      ∃ c, cache = some c ∧ c.folder_id = fid ∧
        (∃ ts, c.timestamp = some ts ∧ now < ts + CACHE_TTL_HOURS) ∧
        c.files_data ≠ [] :=
  is_cache_valid_iff cache now fid

/-- C7. After `invalidate_cache` the volatile snapshot is cleared, so
`is_cache_valid` is false for every scope and at every time, while the
durable `document_chunks` table is left unchanged. -/
theorem claim_C7_invalidate_clears_cache_only (s : SysState) (now : Int) (fid : String) :
    is_cache_valid (invalidate_cache s).cache now fid = false ∧
      (invalidate_cache s).db = s.db := by
  exact ⟨rfl, rfl⟩

/-- C9. The volatile cache holds at most one scope: two scopes with a
valid cache at the same instant coincide, and replacing the cache for one
folder via `update_cache` makes `is_cache_valid` false for every other
folder, at every later query time. -/
theorem claim_C9_single_scope_cache :
    (∀ (cache : Option CacheState) (now : Int) (a b : String),
        is_cache_valid cache now a = true → is_cache_valid cache now b = true → a = b) ∧
    (∀ (s : SysState) (sc : Bool) (fid : String) (data : List Chunk) (now t : Int)
        (other : String), other ≠ fid →
        is_cache_valid (update_cache sc fid data now s).cache t other = false) := by
  constructor
  · intro cache now a b ha hb
    rcases (is_cache_valid_iff cache now a).mp ha with ⟨c, hc, hfa, -, -⟩
    rcases (is_cache_valid_iff cache now b).mp hb with ⟨c', hc', hfb, -, -⟩
    rw [hc] at hc'
    cases Option.some.inj hc'
    exact hfa ▸ hfb
  · intro s sc fid data now t other hne
    simp only [update_cache, is_cache_valid]
    rw [if_pos]
    exact fun h => hne h.symm

/-- C9 witness: a concrete valid cache validates a single scope, and a
concrete `update_cache` for folder "f" leaves folder "g" invalid. -/
theorem claim_C9_single_scope_cache_witness :
    ("f" : String) = "f" ∧
      is_cache_valid (update_cache false "f" [] 0 emptyState).cache 0 "g" = false :=
  ⟨claim_C9_single_scope_cache.1 sampleCache 0 "f" "f" (by decide) (by decide),
   claim_C9_single_scope_cache.2 emptyState false "f" [] 0 0 "g" (by decide)⟩

-- ====================
-- Segmenter: split_text_into_chunks
-- ====================

/-- Python whitespace for `str.strip()`. -/
def isWS (c : Char) : Bool := c.isWhitespace

/-- `str.strip()` on the character list of a Python string: drop trailing
then leading whitespace. -/
def pyStrip (l : List Char) : List Char :=
  ((l.reverse.dropWhile isWS).reverse).dropWhile isWS

/-- The slice `s[-n:]` for `n > 0`: the last `n` characters. -/
def takeLast (n : Nat) (l : List Char) : List Char := l.drop (l.length - n)

/-- The paragraph accumulation loop of `split_text_into_chunks`, over the
already-computed paragraph list and the running buffer `current_chunk`.
On each paragraph: if adding it would exceed `chunk_size` and the buffer
is non-empty, emit the stripped buffer and reseed with the last `overlap`
characters plus a space (empty seed when `overlap = 0`); in all cases
append the paragraph and a space.  At the end the stripped buffer is
emitted if non-empty. -/
def chunkLoop (chunk_size overlap : Nat) : List (List Char) → List Char → List (List Char)
  | [], current_chunk =>
    if pyStrip current_chunk = [] then [] else [pyStrip current_chunk]
  | paragraph :: ps, current_chunk =>
    if current_chunk.length + paragraph.length > chunk_size ∧ current_chunk ≠ [] then
      pyStrip current_chunk ::
        chunkLoop chunk_size overlap ps
          ((if overlap > 0 then takeLast overlap current_chunk ++ [' '] else []) ++
            paragraph ++ [' '])
    else
      chunkLoop chunk_size overlap ps (current_chunk ++ paragraph ++ [' '])

/-- `[p.strip() for p in text.split('\n') if p.strip()]`. -/
def paragraphs_of (text : String) : List (List Char) :=
  ((text.data.splitOn '\n').map pyStrip).filter (fun p => !p.isEmpty)

/-- `split_text_into_chunks(text, chunk_size=800, overlap=100)`. -/
def split_text_into_chunks (text : String) (chunk_size : Nat := 800) (overlap : Nat := 100) :
    List String :=
  if pyStrip text.data = [] then []
  else (chunkLoop chunk_size overlap (paragraphs_of text) []).map String.mk

/-- Length of the longest paragraph of a paragraph list. -/
def maxParaLen (ps : List (List Char)) : Nat :=
  ps.foldr (fun p m => max p.length m) 0

theorem le_maxParaLen (ps : List (List Char)) : ∀ p ∈ ps, p.length ≤ maxParaLen ps := by
  induction ps with
  | nil => intro p h; cases h
  | cons q qs ih =>
    intro p h
    rcases List.mem_cons.mp h with rfl | h
    · exact le_max_left _ _
    · exact le_trans (ih p h) (le_max_right _ _)

theorem pyStrip_length_le (l : List Char) : (pyStrip l).length ≤ l.length := by
  calc (pyStrip l).length
      ≤ ((l.reverse.dropWhile isWS).reverse).length := (List.dropWhile_sublist _).length_le
    _ = (l.reverse.dropWhile isWS).length := List.length_reverse _
    _ ≤ l.reverse.length := (List.dropWhile_sublist _).length_le
    _ = l.length := List.length_reverse _

theorem pyStrip_append_space (l : List Char) : pyStrip (l ++ [' ']) = pyStrip l := by
  unfold pyStrip
  rw [List.reverse_append]
  simp [List.dropWhile_cons, isWS]

theorem takeLast_length_le (n : Nat) (l : List Char) : (takeLast n l).length ≤ n := by
  unfold takeLast
  rw [List.length_drop]
  omega

/-- Invariant of the accumulation loop: if every remaining paragraph has
length at most `P` and the buffer is within one space of the bound
`max chunk_size (P + overlap + 1)` and ends in a space (or is empty),
then every emitted chunk respects the bound. -/
theorem chunkLoop_bound (chunk_size overlap P : Nat) :
    ∀ (ps : List (List Char)) (cur : List Char),
      (∀ p ∈ ps, p.length ≤ P) →
      cur.length ≤ max chunk_size (P + overlap + 1) + 1 →
      (cur = [] ∨ ∃ m, cur = m ++ [' ']) →
      ∀ c ∈ chunkLoop chunk_size overlap ps cur,
        c.length ≤ max chunk_size (P + overlap + 1) := by
  intro ps
  induction ps with
  | nil =>
    intro cur _ hlen hsp c hc
    unfold chunkLoop at hc
    by_cases hs : pyStrip cur = []
    · simp [hs] at hc
    · rw [if_neg hs, List.mem_singleton] at hc
      subst hc
      rcases hsp with rfl | ⟨m, rfl⟩
      · exact absurd rfl hs
      · rw [pyStrip_append_space]
        have h1 := pyStrip_length_le m
        have h2 : (m ++ [' ']).length = m.length + 1 := by simp
        omega
  | cons p ps ih =>
    intro cur hP hlen hsp c hc
    unfold chunkLoop at hc
    by_cases hcond : cur.length + p.length > chunk_size ∧ cur ≠ []
    · rw [if_pos hcond] at hc
      rcases List.mem_cons.mp hc with rfl | hc
      · rcases hsp with rfl | ⟨m, rfl⟩
        · exact absurd rfl hcond.2
        · rw [pyStrip_append_space]
          have h1 := pyStrip_length_le m
          have h2 : (m ++ [' ']).length = m.length + 1 := by simp
          omega
      · refine ih _ (fun q hq => hP q (List.mem_cons_of_mem _ hq)) ?_ ?_ c hc
        · have hseed : (if overlap > 0 then takeLast overlap cur ++ [' '] else []).length ≤
              overlap + 1 := by
            by_cases ho : overlap > 0
            · simp only [ho, if_pos]
              have := takeLast_length_le overlap cur
              simp only [List.length_append, List.length_cons, List.length_nil]
              omega
            · simp [ho]
          have hp : p.length ≤ P := hP p (List.mem_cons_self _ _)
          simp only [List.length_append, List.length_cons, List.length_nil]
          have : P + overlap + 1 ≤ max chunk_size (P + overlap + 1) := le_max_right _ _
          omega
        · right
          exact ⟨(if overlap > 0 then takeLast overlap cur ++ [' '] else []) ++ p, by simp⟩
    · rw [if_neg hcond] at hc
      refine ih _ (fun q hq => hP q (List.mem_cons_of_mem _ hq)) ?_ ?_ c hc
      · have hp : p.length ≤ P := hP p (List.mem_cons_self _ _)
        simp only [List.length_append, List.length_cons, List.length_nil]
        rcases Decidable.not_and_iff_or_not.mp hcond with h | h
        · have h1 : cur.length + p.length ≤ chunk_size := by omega
          have : chunk_size ≤ max chunk_size (P + overlap + 1) := le_max_left _ _
          omega
        · have h1 : cur = [] := Decidable.not_not.mp h
          subst h1
          have : P + overlap + 1 ≤ max chunk_size (P + overlap + 1) := le_max_right _ _
          simp only [List.length_nil]
          omega
      · right
        exact ⟨cur ++ p, by simp⟩

/-- C5 counterexample: with `chunk_size = 5`, `overlap = 2` and the text
"aaa\nbbbbb" (no paragraph longer than `chunk_size`), the produced chunk
"a  bbbbb" has 8 characters, exceeding `chunk_size + overlap = 7`, and it
is not a single paragraph: after an emission the overlap seed is glued in
front of the next paragraph, adding `overlap + 1` characters on top of a
paragraph of length exactly `chunk_size`. -/
theorem claim_C5_counterexample :
    ("a  bbbbb" : String) ∈ split_text_into_chunks "aaa\nbbbbb" 5 2 ∧
      ¬(("a  bbbbb" : String).length ≤ 5 + 2 ∨
          ∃ p ∈ paragraphs_of "aaa\nbbbbb",
            ("a  bbbbb" : String) = String.mk p ∧ 5 < p.length) := by
  decide

/-- C5 amended: with `chunk_size > 0` and any `overlap`, every chunk of
`split_text_into_chunks` has length at most
`max chunk_size (L + overlap + 1)` where `L` is the length of the longest
paragraph; in particular when no paragraph exceeds `chunk_size`, no chunk
exceeds `chunk_size + overlap + 1`. -/
theorem claim_C5_amended (text : String) (chunk_size overlap : Nat) (_hcs : 0 < chunk_size) :
    ∀ c ∈ split_text_into_chunks text chunk_size overlap,
      c.length ≤ max chunk_size (maxParaLen (paragraphs_of text) + overlap + 1) := by
  intro c hc
  unfold split_text_into_chunks at hc
  by_cases hst : pyStrip text.data = []
  · simp [hst] at hc
  · rw [if_neg hst] at hc
    rcases List.mem_map.mp hc with ⟨l, hl, rfl⟩
    have hm : (String.mk l).length = l.length := rfl
    rw [hm]
    exact chunkLoop_bound chunk_size overlap _ (paragraphs_of text) []
      (le_maxParaLen _) (by simp) (Or.inl rfl) l hl

/-- C5 amended, witnessed on the counterexample text: the oversized chunk
"a  bbbbb" still satisfies the corrected bound `max 5 (5 + 2 + 1) = 8`. -/
theorem claim_C5_amended_witness :
    0 < 5 ∧ ("a  bbbbb" : String).length ≤
      max 5 (maxParaLen (paragraphs_of "aaa\nbbbbb") + 2 + 1) :=
  ⟨by decide, claim_C5_amended "aaa\nbbbbb" 5 2 (by decide) "a  bbbbb" (by decide)⟩

-- ====================
-- Similarity ranker: cosine_similarity and semantic_search
-- ====================

/-- The dot product `np.dot(vec1, vec2)` of two float lists. -/
def dot (vec1 vec2 : Vec) : ℚ := (List.zipWith (fun a b => a * b) vec1 vec2).sum

/-- Sum of squares of a vector; `np.linalg.norm(v)` is its real square
root. -/
def sumSq (v : Vec) : ℚ := (v.map (fun x => x * x)).sum

open Classical in
/-- `cosine_similarity(vec1, vec2)`: dot product divided by the product
of norms, with the zero-norm guard `if norm1 == 0 or norm2 == 0: return
0.0` executed before the division. -/
noncomputable def cosine_similarity (vec1 vec2 : Vec) : ℝ :=
  let dot_product : ℝ := (dot vec1 vec2 : ℚ)
  let norm1 : ℝ := Real.sqrt ((sumSq vec1 : ℚ) : ℝ)
  let norm2 : ℝ := Real.sqrt ((sumSq vec2 : ℚ) : ℝ)
  if norm1 = 0 ∨ norm2 = 0 then 0 else dot_product / (norm1 * norm2)

theorem sumSq_nonneg (v : Vec) : 0 ≤ sumSq v := by
  refine List.sum_nonneg ?_
  intro x hx
  rcases List.mem_map.mp hx with ⟨y, -, rfl⟩
  exact mul_self_nonneg y

theorem norm_eq_zero_iff (v : Vec) :
    Real.sqrt ((sumSq v : ℚ) : ℝ) = 0 ↔ sumSq v = 0 := by
  rw [Real.sqrt_eq_zero']
  constructor
  · intro h
    have h0 : (0 : ℝ) ≤ ((sumSq v : ℚ) : ℝ) := by exact_mod_cast sumSq_nonneg v
    have : ((sumSq v : ℚ) : ℝ) = 0 := le_antisymm h h0
    exact_mod_cast this
  · intro h
    rw [h]
    norm_num

/-- C8. If either input has zero norm (equivalently, zero sum of
squares), `cosine_similarity` returns exactly `0.0`; otherwise the guard
does not fire and the division is executed with a provably nonzero
divisor, so no division by zero (hence no NaN) can occur. -/
theorem claim_C8_cosine_zero_norm (vec1 vec2 : Vec) :
    ((sumSq vec1 = 0 ∨ sumSq vec2 = 0) → cosine_similarity vec1 vec2 = 0) ∧
      (sumSq vec1 ≠ 0 → sumSq vec2 ≠ 0 →
        Real.sqrt ((sumSq vec1 : ℚ) : ℝ) * Real.sqrt ((sumSq vec2 : ℚ) : ℝ) ≠ 0 ∧
          cosine_similarity vec1 vec2 =
            ((dot vec1 vec2 : ℚ) : ℝ) /
              (Real.sqrt ((sumSq vec1 : ℚ) : ℝ) * Real.sqrt ((sumSq vec2 : ℚ) : ℝ))) := by
  constructor
  · intro h
    have hcond : Real.sqrt ((sumSq vec1 : ℚ) : ℝ) = 0 ∨
        Real.sqrt ((sumSq vec2 : ℚ) : ℝ) = 0 := by
      rcases h with h | h
      · exact Or.inl ((norm_eq_zero_iff vec1).mpr h)
      · exact Or.inr ((norm_eq_zero_iff vec2).mpr h)
    simp only [cosine_similarity]
    rw [if_pos hcond]
  · intro h1 h2
    have p1 : 0 < Real.sqrt ((sumSq vec1 : ℚ) : ℝ) := by
      refine Real.sqrt_pos.mpr ?_
      have := lt_of_le_of_ne (sumSq_nonneg vec1) (Ne.symm h1)
      exact_mod_cast this
    have p2 : 0 < Real.sqrt ((sumSq vec2 : ℚ) : ℝ) := by
      refine Real.sqrt_pos.mpr ?_
      have := lt_of_le_of_ne (sumSq_nonneg vec2) (Ne.symm h2)
      exact_mod_cast this
    refine ⟨ne_of_gt (mul_pos p1 p2), ?_⟩
    simp only [cosine_similarity]
    rw [if_neg]
    push_neg
    exact ⟨ne_of_gt p1, ne_of_gt p2⟩

/-- C8 witness: the zero vector against `[1]` scores `0.0`, and for the
nonzero pair `([1], [1])` the divisor is nonzero and the division branch
is taken. -/
theorem claim_C8_cosine_zero_norm_witness :
    cosine_similarity [0] [1] = 0 ∧
      (Real.sqrt ((sumSq [1] : ℚ) : ℝ) * Real.sqrt ((sumSq [1] : ℚ) : ℝ) ≠ 0 ∧
        cosine_similarity [1] [1] =
          ((dot [1] [1] : ℚ) : ℝ) /
            (Real.sqrt ((sumSq [1] : ℚ) : ℝ) * Real.sqrt ((sumSq [1] : ℚ) : ℝ))) :=
  ⟨(claim_C8_cosine_zero_norm [0] [1]).1 (Or.inl (by norm_num [sumSq])),
   (claim_C8_cosine_zero_norm [1] [1]).2 (by norm_num [sumSq]) (by norm_num [sumSq])⟩

/-- A scored search result, the dict `{**chunk, 'similarity': s}`. -/
structure RankedChunk where
  chunk : Chunk
  similarity : ℝ

open Classical in
/-- One step of a stable descending insertion on the similarity key:
walk past entries with strictly greater score, so that among equal
scores earlier input comes first. -/
noncomputable def insortDesc (x : RankedChunk) : List RankedChunk → List RankedChunk
  | [] => [x]
  | y :: ys => if x.similarity < y.similarity then y :: insortDesc x ys else x :: y :: ys

/-- `results.sort(key=lambda x: x['similarity'], reverse=True)`:
CPython's sort is stable also with `reverse=True`, and a stable sort is
determined uniquely by the key and the input order, so it is modelled by
stable insertion sort on the score. -/
noncomputable def sortBySimilarityDesc : List RankedChunk → List RankedChunk
  | [] => []
  | x :: xs => insortDesc x (sortBySimilarityDesc xs)

/-- The scored list built by the loop of `semantic_search`: one result
per candidate, in input order.  A missing embedding reads as the empty
vector (callers only pass chunks holding one). -/
noncomputable def scored_results (query_embedding : Vec) (chunks_data : List Chunk) :
    List RankedChunk :=
  chunks_data.map (fun chunk =>
    { chunk := chunk,
      similarity := cosine_similarity query_embedding (chunk.embedding.getD []) })

/-- `semantic_search(query, chunks_data, top_k=10)` with the query
already embedded (`generate_embedding` is the external provider): score
every candidate, sort by descending similarity, slice `[:top_k]`. -/
noncomputable def semantic_search (query_embedding : Vec) (chunks_data : List Chunk)
    (top_k : Nat := 10) : List RankedChunk :=
  (sortBySimilarityDesc (scored_results query_embedding chunks_data)).take top_k

theorem length_insortDesc (x : RankedChunk) (l : List RankedChunk) :
    (insortDesc x l).length = l.length + 1 := by
  induction l with
  | nil => rfl
  | cons y ys ih =>
    unfold insortDesc
    by_cases h : x.similarity < y.similarity
    · rw [if_pos h]
      simp [ih]
    · rw [if_neg h]
      simp

theorem length_sortBySimilarityDesc (l : List RankedChunk) :
    (sortBySimilarityDesc l).length = l.length := by
  induction l with
  | nil => rfl
  | cons x xs ih =>
    show (insortDesc x (sortBySimilarityDesc xs)).length = _
    rw [length_insortDesc, ih, List.length_cons]

theorem mem_insortDesc {z x : RankedChunk} {l : List RankedChunk}
    (h : z ∈ insortDesc x l) : z = x ∨ z ∈ l := by
  induction l with
  | nil =>
    simp only [insortDesc, List.mem_singleton] at h
    exact Or.inl h
  | cons y ys ih =>
    unfold insortDesc at h
    by_cases hlt : x.similarity < y.similarity
    · rw [if_pos hlt] at h
      rcases List.mem_cons.mp h with rfl | h
      · exact Or.inr (List.mem_cons_self _ _)
      · rcases ih h with h | h
        · exact Or.inl h
        · exact Or.inr (List.mem_cons_of_mem _ h)
    · rw [if_neg hlt] at h
      rcases List.mem_cons.mp h with rfl | h
      · exact Or.inl rfl
      · exact Or.inr h

theorem pairwise_insortDesc {x : RankedChunk} {l : List RankedChunk}
    (h : List.Pairwise (fun a b => b.similarity ≤ a.similarity) l) :
    List.Pairwise (fun a b => b.similarity ≤ a.similarity) (insortDesc x l) := by
  induction l with
  | nil => simp [insortDesc]
  | cons y ys ih =>
    rw [List.pairwise_cons] at h
    unfold insortDesc
    by_cases hlt : x.similarity < y.similarity
    · rw [if_pos hlt, List.pairwise_cons]
      refine ⟨?_, ih h.2⟩
      intro z hz
      rcases mem_insortDesc hz with rfl | hz
      · exact le_of_lt hlt
      · exact h.1 z hz
    · rw [if_neg hlt, List.pairwise_cons]
      refine ⟨?_, List.pairwise_cons.mpr h⟩
      intro z hz
      rcases List.mem_cons.mp hz with rfl | hz
      · exact not_lt.mp hlt
      · exact le_trans (h.1 z hz) (not_lt.mp hlt)

theorem pairwise_sortBySimilarityDesc (l : List RankedChunk) :
    List.Pairwise (fun a b => b.similarity ≤ a.similarity) (sortBySimilarityDesc l) := by
  induction l with
  | nil => simp [sortBySimilarityDesc]
  | cons x xs ih =>
    show List.Pairwise _ (insortDesc x (sortBySimilarityDesc xs))
    exact pairwise_insortDesc ih

theorem filter_insortDesc (p : RankedChunk → Bool)
    (hp : ∀ a b, p a = true → p b = true → a.similarity = b.similarity)
    (x : RankedChunk) (l : List RankedChunk) :
    (insortDesc x l).filter p =
      if p x = true then x :: l.filter p else l.filter p := by
  induction l with
  | nil =>
    by_cases hx : p x = true <;> simp [insortDesc, List.filter, hx]
  | cons y ys ih =>
    unfold insortDesc
    by_cases hlt : x.similarity < y.similarity
    · rw [if_pos hlt, List.filter_cons, ih]
      by_cases hx : p x = true
      · have hy : p y = false := by
          rcases Bool.eq_false_or_eq_true (p y) with h | h
          · exfalso
            rw [hp x y hx h] at hlt
            exact lt_irrefl _ hlt
          · exact h
        simp [hx, hy, List.filter_cons]
      · simp [hx, List.filter_cons]
    · rw [if_neg hlt, List.filter_cons]

theorem filter_sortBySimilarityDesc (p : RankedChunk → Bool)
    (hp : ∀ a b, p a = true → p b = true → a.similarity = b.similarity)
    (l : List RankedChunk) :
    (sortBySimilarityDesc l).filter p = l.filter p := by
  induction l with
  | nil => rfl
  | cons x xs ih =>
    show (insortDesc x (sortBySimilarityDesc xs)).filter p = _
    rw [filter_insortDesc p hp, ih, List.filter_cons]

/-- C6. For every query vector, candidate list and `top_k`: the output
of `semantic_search` has length `min top_k n` (so at most `top_k`, and
all candidates when fewer exist), is ordered by descending similarity,
and is stable — for any predicate selecting a single score class, the
selected output entries form a sublist of the selected scored input
entries, i.e. equal-score entries keep their input order. -/
theorem claim_C6_semantic_search_ranking (query_embedding : Vec)
    (chunks_data : List Chunk) (top_k : Nat) :
    (semantic_search query_embedding chunks_data top_k).length =
        min top_k chunks_data.length ∧
      List.Pairwise (fun a b => b.similarity ≤ a.similarity)
        (semantic_search query_embedding chunks_data top_k) ∧
      ∀ p : RankedChunk → Bool,
        (∀ a b, p a = true → p b = true → a.similarity = b.similarity) →
        ((semantic_search query_embedding chunks_data top_k).filter p).Sublist
          ((scored_results query_embedding chunks_data).filter p) := by
  refine ⟨?_, ?_, ?_⟩
  · unfold semantic_search
    rw [List.length_take, length_sortBySimilarityDesc]
    unfold scored_results
    rw [List.length_map]
  · exact List.Pairwise.sublist (List.take_sublist _ _) (pairwise_sortBySimilarityDesc _)
  · intro p hp
    have h1 := List.Sublist.filter p
      (List.take_sublist top_k (sortBySimilarityDesc (scored_results query_embedding chunks_data)))
    rw [filter_sortBySimilarityDesc p hp] at h1
    exact h1

/-- C6 witness: the stability part applied at a concrete query, corpus
and single-class predicate. -/
theorem claim_C6_semantic_search_ranking_witness :
    ((semantic_search [1] [sampleGoodChunk] 1).filter (fun _ => false)).Sublist
      ((scored_results [1] [sampleGoodChunk]).filter (fun _ => false)) :=
  (claim_C6_semantic_search_ranking [1] [sampleGoodChunk] 1).2.2 (fun _ => false)
    (by simp)

-- ====================
-- Ingestion orchestrator: warmup_cache and refresh_cache
-- ====================

/-- A Drive listing entry: `{id, name, mimeType, webViewLink}`. -/
structure DriveFile where
  id : String
  name : String
  mimeType : String
  webViewLink : String
deriving DecidableEq, Repr

/-- The environment of one request: configuration flags and the external
collaborators, each returning `Except` to model a raised exception.
`extract` covers download plus format-specific extraction of one file
(including the unsupported-mime placeholder text, which the source
produces without raising); `embed` is `generate_embedding` (which
truncates its input to 30000 chars before calling the API — part of the
collaborator).  `now` is the current time in hours. -/
structure Env where
  folder_id : Option String
  openai_configured : Bool
  db_configured : Bool
  now : Int
  listing : Except String (List DriveFile)
  extract : DriveFile → Except String String
  embed : String → Except String Vec

/-- The JSON body returned by `/api/warmup`; optional fields model dict
keys present only on some paths. -/
structure WarmupResult where
  success : Bool
  message : String
  total_chunks : Option Nat := none
  total_documents : Option Nat := none
  total_files : Option Nat := none
  cache_status : Option String := none
  cache_ttl_hours : Option Int := none
  embedding_errors : Option (List String) := none
  total_errors : Option Nat := none
deriving DecidableEq, Repr

/-- The placeholder chunk appended when processing a file raises:
`chunk_id = f"{file_id}_error"`, no embedding, `chunk_index=0`,
`total_chunks=1`. -/
def mkErrorChunk (f : DriveFile) (e : String) : Chunk :=
  { chunk_id := f.id ++ "_error",
    text := "[Error al procesar archivo: " ++ e ++ "]",
    embedding := none,
    source_document := f.name,
    source_link := f.webViewLink,
    chunk_index := 0,
    total_chunks := 1 }

/-- The inner `for i, chunk_text in enumerate(chunks)` loop of
`warmup_cache`: on success append the chunk dict, on failure append
`f"{file_name} chunk {i}: {err}"` to the error accumulator and drop the
chunk.  `i` is the running index, `total` the chunk count of the
document. -/
def embedLoop (env : Env) (f : DriveFile) (total : Nat) :
    Nat → List String → List Chunk × List String
  | _, [] => ([], [])
  | i, chunk_text :: rest =>
    let acc := embedLoop env f total (i + 1) rest
    match env.embed chunk_text with
    | Except.ok embedding =>
      ({ chunk_id := f.id ++ "_" ++ toString i,
         text := chunk_text,
         embedding := some embedding,
         source_document := f.name,
         source_link := f.webViewLink,
         chunk_index := i,
         total_chunks := total } :: acc.1, acc.2)
    | Except.error msg =>
      (acc.1, (f.name ++ " chunk " ++ toString i ++ ": " ++ msg) :: acc.2)

/-- The per-file `try` body: extraction failure yields the single error
placeholder chunk; otherwise the content is segmented with
`chunk_size=3000, overlap=300` and embedded chunk by chunk. -/
def processFile (env : Env) (f : DriveFile) : List Chunk × List String :=
  match env.extract f with
  | Except.error e => ([mkErrorChunk f e], [])
  | Except.ok content =>
    let chunks := split_text_into_chunks content 3000 300
    embedLoop env f chunks.length 0 chunks

/-- The outer file loop: `all_files_data` and `embedding_errors` grow in
file order. -/
def processFiles (env : Env) (files : List DriveFile) : List Chunk × List String :=
  ((files.map (fun f => (processFile env f).1)).flatten,
   (files.map (fun f => (processFile env f).2)).flatten)

/-- `/api/warmup` (`warmup_cache`): configuration checks, warm-cache
early return, listing, the file loop, `update_cache`, and the result
dict with `success = len(all_files_data) > 0` plus the capped error
sample.  `Except.error` models a raised `HTTPException`. -/
def warmup_cache (env : Env) (s : SysState) : Except String (WarmupResult × SysState) :=
  match env.folder_id with
  | none => Except.error "FOLDER_ID no configurado. Verifica el archivo .env"
  | some fid =>
    if !env.openai_configured then
      Except.error "OpenAI API no configurado. Verifica que OPENAI_API_KEY esté en las variables de entorno."
    else if is_cache_valid s.cache env.now fid then
      let cached_chunks := get_cached_files s.cache
      Except.ok
        ({ success := true,
           message := "Caché ya está precargado y válido",
           total_chunks := some cached_chunks.length,
           total_documents := some ((cached_chunks.map (fun c => c.source_document)).dedup.length),
           cache_status := some "warm" }, s)
    else
      match env.listing with
      | Except.error e => Except.error e
      | Except.ok files =>
        if files.isEmpty then
          Except.ok
            ({ success := false,
               message := "No hay archivos en la carpeta para precargar",
               total_files := some 0,
               cache_status := some "empty" }, s)
        else
          let all_files_data := (processFiles env files).1
          let errs := (processFiles env files).2
          let s' := update_cache env.db_configured fid all_files_data env.now s
          let unique_docs := ((all_files_data.map (fun c => c.source_document)).dedup).length
          Except.ok
            ({ success := decide (0 < all_files_data.length),
               message := if 0 < all_files_data.length then
                   "Caché precargado exitosamente con embeddings"
                 else "Error: No se generaron embeddings",
               total_chunks := some all_files_data.length,
               total_documents := some unique_docs,
               cache_status := some "warm",
               cache_ttl_hours := some CACHE_TTL_HOURS,
               embedding_errors := if errs.isEmpty then none else some (errs.take 5),
               total_errors := if errs.isEmpty then none else some errs.length }, s')

/-- The JSON body returned by `/api/refresh-cache`. -/
structure RefreshResult where
  success : Bool
  message : String
  total_chunks : Nat
  total_documents : Nat
  cache_status : String
  cache_ttl_days : Int
deriving DecidableEq, Repr

/-- `/api/refresh-cache` (`refresh_cache`): invalidate, rerun warmup,
and report `success: True` / `cache_status: "refreshed"` from the mere
fact that warmup returned, reading counts with `result.get(..., 0)`.
A raised exception is wrapped into a new 500 error. -/
def refresh_cache (env : Env) (s : SysState) : Except String (RefreshResult × SysState) :=
  match warmup_cache env (invalidate_cache s) with
  | Except.error e => Except.error ("Error al actualizar caché: " ++ e)
  | Except.ok (result, s') =>
    Except.ok
      ({ success := true,
         message := "Caché actualizado exitosamente con embeddings generados",
         total_chunks := result.total_chunks.getD 0,
         total_documents := result.total_documents.getD 0,
         cache_status := "refreshed",
         cache_ttl_days := CACHE_TTL_HOURS / 24 }, s')

/-- Sample data: a Drive listing entry. -/
def sampleFile : DriveFile :=
  { id := "id1", name := "doc1", mimeType := "application/pdf", webViewLink := "link1" }

/-- Sample environment: one file whose extraction yields "hola" (one
chunk) and whose embedding call always fails. -/
def sampleEnv : Env :=
  { folder_id := some "f", openai_configured := true, db_configured := false,
    now := 0, listing := Except.ok [sampleFile],
    extract := fun _ => Except.ok "hola",
    embed := fun _ => Except.error "boom" }

/-- What `warmup_cache` returns in `sampleEnv` starting from the empty
state: one chunk was segmented, its embedding failed, so zero chunks
were assembled and the run reports `success = false`. -/
def sampleWarmupFailure : WarmupResult :=
  { success := false, message := "Error: No se generaron embeddings",
    total_chunks := some 0, total_documents := some 0,
    cache_status := some "warm", cache_ttl_hours := some CACHE_TTL_HOURS,
    embedding_errors := some ["doc1 chunk 0: boom"], total_errors := some 1 }

/-- The state after that run: an empty snapshot was installed, the
database untouched. -/
def sampleStateAfter : SysState :=
  { cache := some { timestamp := some 0, folder_id := "f", files_data := [], total_files := 0 },
    db := [] }

theorem embedLoop_error_mem (env : Env) (f : DriveFile) (total : Nat) :
    ∀ (rest : List String) (i0 j : Nat) (ct msg : String),
      rest[j]? = some ct → env.embed ct = Except.error msg →
      (f.name ++ " chunk " ++ toString (i0 + j) ++ ": " ++ msg) ∈
        (embedLoop env f total i0 rest).2 := by
  intro rest
  induction rest with
  | nil =>
    intro i0 j ct msg hget _
    simp at hget
  | cons ct0 rest ih =>
    intro i0 j ct msg hget hemb
    match j with
    | 0 =>
      rw [List.getElem?_cons_zero] at hget
      cases Option.some.inj hget
      simp only [embedLoop, hemb, Nat.add_zero]
      exact List.mem_cons_self _ _
    | Nat.succ j =>
      rw [List.getElem?_cons_succ] at hget
      have harith : i0 + (j + 1) = i0 + 1 + j := by omega
      rw [harith]
      cases hE : env.embed ct0 with
      | ok emb =>
        simp only [embedLoop, hE]
        exact ih (i0 + 1) j ct msg hget hemb
      | error msg0 =>
        simp only [embedLoop, hE]
        exact List.mem_cons_of_mem _ (ih (i0 + 1) j ct msg hget hemb)

theorem embedLoop_chunk_origin (env : Env) (f : DriveFile) (total : Nat) :
    ∀ (rest : List String) (i0 : Nat) (c : Chunk), c ∈ (embedLoop env f total i0 rest).1 →
      ∃ k ct emb, rest[k]? = some ct ∧ c.chunk_index = i0 + k ∧
        env.embed ct = Except.ok emb := by
  intro rest
  induction rest with
  | nil =>
    intro i0 c hc
    simp [embedLoop] at hc
  | cons ct0 rest ih =>
    intro i0 c hc
    cases hE : env.embed ct0 with
    | ok emb =>
      simp only [embedLoop, hE] at hc
      rcases List.mem_cons.mp hc with rfl | hc
      · exact ⟨0, ct0, emb, by simp, by simp, hE⟩
      · rcases ih (i0 + 1) c hc with ⟨k, ct, emb', hget, hidx, hemb⟩
        refine ⟨k + 1, ct, emb', by simpa using hget, ?_, hemb⟩
        rw [hidx]
        omega
    | error msg =>
      simp only [embedLoop, hE] at hc
      rcases ih (i0 + 1) c hc with ⟨k, ct, emb', hget, hidx, hemb⟩
      refine ⟨k + 1, ct, emb', by simpa using hget, ?_, hemb⟩
      rw [hidx]
      omega

/-- Per-document failure isolation: an embedding failure for chunk `j`
leaves its error message in the document's error list and removes
exactly that chunk from the document's contribution. -/
theorem processFile_drops_failed_chunk (env : Env) (f : DriveFile) (content : String)
    (j : Nat) (ct msg : String)
    (hex : env.extract f = Except.ok content)
    (hget : (split_text_into_chunks content 3000 300)[j]? = some ct)
    (hemb : env.embed ct = Except.error msg) :
    (f.name ++ " chunk " ++ toString j ++ ": " ++ msg) ∈ (processFile env f).2 ∧
      ∀ c ∈ (processFile env f).1, c.chunk_index ≠ j := by
  constructor
  · have h := embedLoop_error_mem env f (split_text_into_chunks content 3000 300).length
      (split_text_into_chunks content 3000 300) 0 j ct msg hget hemb
    rw [Nat.zero_add] at h
    simpa only [processFile, hex] using h
  · intro c hc
    simp only [processFile, hex] at hc
    rcases embedLoop_chunk_origin env f _ _ 0 c hc with ⟨k, ct', emb, hget', hidx, hemb'⟩
    rw [Nat.zero_add] at hidx
    intro hj
    rw [hj] at hidx
    subst hidx
    rw [hget] at hget'
    cases Option.some.inj hget'
    rw [hemb] at hemb'
    cases hemb'

/-- The main path of `warmup_cache`: configuration fine, cache cold,
listing delivered a non-empty file list. -/
theorem warmup_cache_main (env : Env) (s : SysState) (fid : String) (files : List DriveFile)
    (h1 : env.folder_id = some fid) (h2 : env.openai_configured = true)
    (h3 : is_cache_valid s.cache env.now fid = false)
    (h4 : env.listing = Except.ok files) (h5 : files ≠ []) :
    warmup_cache env s = Except.ok
      ({ success := decide (0 < (processFiles env files).1.length),
         message := if 0 < (processFiles env files).1.length then
             "Caché precargado exitosamente con embeddings"
           else "Error: No se generaron embeddings",
         total_chunks := some (processFiles env files).1.length,
         total_documents :=
           some (((processFiles env files).1.map (fun c => c.source_document)).dedup).length,
         cache_status := some "warm",
         cache_ttl_hours := some CACHE_TTL_HOURS,
         embedding_errors := if (processFiles env files).2.isEmpty then none
           else some ((processFiles env files).2.take 5),
         total_errors := if (processFiles env files).2.isEmpty then none
           else some (processFiles env files).2.length },
       update_cache env.db_configured fid (processFiles env files).1 env.now s) := by
  have h5' : files.isEmpty = false := by
    rcases files with _ | ⟨f, fs⟩
    · exact absurd rfl h5
    · rfl
  simp only [warmup_cache, h1, h2, h3, h4, h5', Bool.not_true, Bool.false_eq_true,
    if_false, ite_false]

/-- C1 counterexample: a chunk whose `embedding` is null is NOT written
to durable storage by the replace operation — `save_chunks_to_db` skips
it (`continue`), so the table stays empty. -/
theorem claim_C1_counterexample :
    sampleErrorChunk.embedding = none ∧
      (update_cache true "f" [sampleErrorChunk] 0 emptyState).db = [] :=
  ⟨rfl, rfl⟩

/-- C1 amended: the replace operation persists only chunks with a usable
embedding — every durable record of the replaced scope originates from a
chunk whose `embedding` was present — and chunks without a usable
embedding are excluded from the embedding-based read path
(`chunks_with_embeddings`, the list handed to `semantic_search`). -/
theorem claim_C1_amended (fid : String) (chunks : List Chunk) (now : Int) (s : SysState) :
    (∀ r ∈ (update_cache true fid chunks now s).db, r.folder_id = fid →
        ∃ c ∈ chunks, c.chunk_id = r.chunk_id ∧ c.embedding = some r.embedding) ∧
      (∀ (data : List Chunk) (c : Chunk), c.embedding = none →
        c ∉ chunks_with_embeddings data) := by
  constructor
  · intro r hr hfid
    simp only [update_cache, save_chunks_to_db, not_true, if_neg, ite_false] at hr
    rcases List.mem_append.mp hr with hold | hnew
    · have hne := (List.mem_filter.mp hold).2
      rw [bne_iff_ne] at hne
      exact absurd hfid hne
    · rcases List.mem_filterMap.mp hnew with ⟨c, hc, heq⟩
      refine ⟨c, hc, ?_⟩
      match hce : c.embedding with
      | none => rw [hce] at heq; cases heq
      | some e =>
        rw [hce] at heq
        cases Option.some.inj heq
        exact ⟨rfl, rfl⟩
  · intro data c hnone hmem
    have h := (List.mem_filter.mp hmem).2
    rw [hnone] at h
    cases h

/-- C1 amended witness: a chunk with an embedding produces its durable
row, and a chunk without one is absent from the embedding read path. -/
theorem claim_C1_amended_witness :
    (∃ c ∈ [sampleGoodChunk], c.chunk_id = sampleGoodRow.chunk_id ∧
        c.embedding = some sampleGoodRow.embedding) ∧
      sampleErrorChunk ∉ chunks_with_embeddings [sampleErrorChunk] :=
  ⟨(claim_C1_amended "f" [sampleGoodChunk] 0 emptyState).1 sampleGoodRow
      (List.mem_singleton.mpr rfl) rfl,
   (claim_C1_amended "f" [] 0 emptyState).2 [sampleErrorChunk] sampleErrorChunk rfl⟩

/-- C2 counterexample: in `sampleEnv` the single document extracts into
exactly one chunk, its embedding call fails, and afterwards the
assembled corpus is empty and `total_chunks = 0` — the failed chunk is
NOT appended with a null embedding and NOT counted in `total_chunks`. -/
theorem claim_C2_counterexample :
    (split_text_into_chunks "hola" 3000 300).length = 1 ∧
      sampleEnv.embed "hola" = Except.error "boom" ∧
      warmup_cache sampleEnv emptyState = Except.ok (sampleWarmupFailure, sampleStateAfter) ∧
      sampleWarmupFailure.total_chunks = some 0 ∧
      sampleStateAfter.cache =
        some { timestamp := some 0, folder_id := "f", files_data := [], total_files := 0 } :=
  ⟨rfl, rfl, rfl, rfl, rfl⟩

/-- C2 amended: an embedding failure for one chunk aborts neither the
document nor the run — `warmup_cache` still returns a result — but the
failed chunk is dropped from the document's contribution (no assembled
chunk carries its index), hence not counted in `total_chunks`; the
failure message is accumulated into the error report, whose first 5
entries and total count are returned to the caller. -/
theorem claim_C2_amended (env : Env) (s : SysState) (fid : String) (files : List DriveFile)
    (f : DriveFile) (content : String) (j : Nat) (ct msg : String)
    (h1 : env.folder_id = some fid) (h2 : env.openai_configured = true)
    (h3 : is_cache_valid s.cache env.now fid = false)
    (h4 : env.listing = Except.ok files) (hf : f ∈ files)
    (hex : env.extract f = Except.ok content)
    (hget : (split_text_into_chunks content 3000 300)[j]? = some ct)
    (hemb : env.embed ct = Except.error msg) :
    ∃ r s', warmup_cache env s = Except.ok (r, s') ∧
      (f.name ++ " chunk " ++ toString j ++ ": " ++ msg) ∈ (processFiles env files).2 ∧
      (∀ c ∈ (processFile env f).1, c.chunk_index ≠ j) ∧
      r.total_chunks = some (processFiles env files).1.length ∧
      r.embedding_errors = some ((processFiles env files).2.take 5) ∧
      r.total_errors = some (processFiles env files).2.length := by
  have h5 : files ≠ [] := by
    intro h
    rw [h] at hf
    cases hf
  have hdrop := processFile_drops_failed_chunk env f content j ct msg hex hget hemb
  have hmem : (f.name ++ " chunk " ++ toString j ++ ": " ++ msg) ∈ (processFiles env files).2 := by
    simp only [processFiles]
    rw [List.mem_flatten]
    exact ⟨(processFile env f).2, List.mem_map.mpr ⟨f, hf, rfl⟩, hdrop.1⟩
  have hne : (processFiles env files).2.isEmpty = false := by
    rcases hE : (processFiles env files).2 with _ | ⟨e, es⟩
    · rw [hE] at hmem
      cases hmem
    · rfl
  refine ⟨_, _, warmup_cache_main env s fid files h1 h2 h3 h4 h5, hmem, hdrop.2, rfl, ?_, ?_⟩
  · simp only [hne, Bool.false_eq_true, if_false, ite_false]
  · simp only [hne, Bool.false_eq_true, if_false, ite_false]

/-- C2 amended witness: the theorem applied to `sampleEnv`, where the
single chunk "hola" of document "doc1" fails to embed. -/
theorem claim_C2_amended_witness :
    ∃ r s', warmup_cache sampleEnv emptyState = Except.ok (r, s') ∧
      ("doc1 chunk 0: boom") ∈ (processFiles sampleEnv [sampleFile]).2 ∧
      (∀ c ∈ (processFile sampleEnv sampleFile).1, c.chunk_index ≠ 0) ∧
      r.total_chunks = some (processFiles sampleEnv [sampleFile]).1.length ∧
      r.embedding_errors = some ((processFiles sampleEnv [sampleFile]).2.take 5) ∧
      r.total_errors = some (processFiles sampleEnv [sampleFile]).2.length :=
  claim_C2_amended sampleEnv emptyState "f" [sampleFile] sampleFile "hola" 0 "hola" "boom"
    rfl rfl rfl rfl (List.mem_singleton.mpr rfl) rfl rfl rfl

/-- C3 counterexample: a refresh run in which the source listing
succeeds (one file is returned) but the run result reports
`success = false`, because every embedding failed and no chunk was
assembled — contradicting "success = true regardless of per-chunk
embedding failures". -/
theorem claim_C3_counterexample :
    sampleEnv.listing = Except.ok [sampleFile] ∧
      warmup_cache sampleEnv emptyState = Except.ok (sampleWarmupFailure, sampleStateAfter) ∧
      sampleWarmupFailure.success = false :=
  ⟨rfl, rfl, rfl⟩

/-- C3 amended: when configuration is fine, the cache is cold and the
listing succeeds with a non-empty file list, the run is never aborted by
per-document or per-chunk failures and returns total chunk and document
counts plus, when embedding errors occurred, a capped sample (first 5)
and the total error count; but `success` is true exactly when at least
one chunk was assembled (an empty listing also reports
`success = false`). -/
theorem claim_C3_amended (env : Env) (s : SysState) (fid : String) (files : List DriveFile)
    (h1 : env.folder_id = some fid) (h2 : env.openai_configured = true)
    (h3 : is_cache_valid s.cache env.now fid = false)
    (h4 : env.listing = Except.ok files) (h5 : files ≠ []) :
    ∃ r s', warmup_cache env s = Except.ok (r, s') ∧
      (r.success = true ↔ (processFiles env files).1 ≠ []) ∧
      r.total_chunks = some (processFiles env files).1.length ∧
      r.total_documents =
        some (((processFiles env files).1.map (fun c => c.source_document)).dedup).length ∧
      ((processFiles env files).2 ≠ [] →
        r.embedding_errors = some ((processFiles env files).2.take 5) ∧
          r.total_errors = some (processFiles env files).2.length) ∧
      ((processFiles env files).2 = [] →
        r.embedding_errors = none ∧ r.total_errors = none) := by
  refine ⟨_, _, warmup_cache_main env s fid files h1 h2 h3 h4 h5, ?_, rfl, rfl, ?_, ?_⟩
  · simp [List.length_pos]
  · intro hne
    have h : (processFiles env files).2.isEmpty = false := by
      rcases hE : (processFiles env files).2 with _ | ⟨e, es⟩
      · exact absurd hE hne
      · rfl
    constructor
    · simp only [h, Bool.false_eq_true, if_false, ite_false]
    · simp only [h, Bool.false_eq_true, if_false, ite_false]
  · intro hempty
    have h : (processFiles env files).2.isEmpty = true := by
      rw [hempty]
      rfl
    constructor
    · simp only [h, if_true, ite_true]
    · simp only [h, if_true, ite_true]

/-- C3 amended witness: the theorem applied to `sampleEnv`; the run
returns with `success = false` because zero chunks were assembled, and
with the one embedding error reported. -/
theorem claim_C3_amended_witness :
    ∃ r s', warmup_cache sampleEnv emptyState = Except.ok (r, s') ∧
      (r.success = true ↔ (processFiles sampleEnv [sampleFile]).1 ≠ []) ∧
      r.total_chunks = some (processFiles sampleEnv [sampleFile]).1.length ∧
      r.total_documents =
        some (((processFiles sampleEnv [sampleFile]).1.map
          (fun c => c.source_document)).dedup).length ∧
      ((processFiles sampleEnv [sampleFile]).2 ≠ [] →
        r.embedding_errors = some ((processFiles sampleEnv [sampleFile]).2.take 5) ∧
          r.total_errors = some (processFiles sampleEnv [sampleFile]).2.length) ∧
      ((processFiles sampleEnv [sampleFile]).2 = [] →
        r.embedding_errors = none ∧ r.total_errors = none) :=
  claim_C3_amended sampleEnv emptyState "f" [sampleFile] rfl rfl rfl rfl
    (by intro h; cases h)

/-- C10. Whenever the warmup step returns a result instead of raising,
`refresh_cache` reports `success = true` and `cache_status =
"refreshed"`, copying the counts out of the warmup result with
`.get(..., 0)` — no matter what `success` value the warmup result
itself carried. -/
theorem claim_C10_refresh_reports_success (env : Env) (s : SysState)
    (r : WarmupResult) (s' : SysState)
    (h : warmup_cache env (invalidate_cache s) = Except.ok (r, s')) :
    refresh_cache env s = Except.ok
      ({ success := true,
         message := "Caché actualizado exitosamente con embeddings generados",
         total_chunks := r.total_chunks.getD 0,
         total_documents := r.total_documents.getD 0,
         cache_status := "refreshed",
         cache_ttl_days := CACHE_TTL_HOURS / 24 }, s') := by
  unfold refresh_cache
  rw [h]

/-- C10 witness: in `sampleEnv` the warmup result carries
`success = false`, yet the refresh endpoint reports `success = true`
and `cache_status = "refreshed"`. -/
theorem claim_C10_refresh_reports_success_witness :
    sampleWarmupFailure.success = false ∧
      refresh_cache sampleEnv emptyState = Except.ok
        ({ success := true,
           message := "Caché actualizado exitosamente con embeddings generados",
           total_chunks := 0,
           total_documents := 0,
           cache_status := "refreshed",
           cache_ttl_days := CACHE_TTL_HOURS / 24 }, sampleStateAfter) :=
  ⟨rfl, claim_C10_refresh_reports_success sampleEnv emptyState sampleWarmupFailure
    sampleStateAfter rfl⟩
